import Mathlib

/-!
Verification of `monaifbs/fetal_brain_seg.py` (MONAIfbs), a CLI shim that
resolves a YAML configuration, loops over input/output filename pairs,
delegates segmentation to an external `run_inference` routine, and renames
the produced intermediate file to the requested output name.

The script is embedded shallowly:
* strings and POSIX path arithmetic (`os.path.dirname`, `os.path.basename`,
  `os.path.join`) are modelled over `String`/`List Char`;
* the filesystem is a pair of lists (existing files, existing directories);
* `yaml.load` is modelled by passing the parsed configuration as a parameter;
* the external `run_inference` is an opaque parameter mutating the filesystem;
* every `run_inference` invocation is recorded in a call trace.
-/

namespace FetalBrainSeg

/-- `hasPre p s` is true when the character list `p` is an initial segment
of `s` (used to model Python string operations). -/
def hasPre : List Char → List Char → Bool
  | [], _ => true
  | _ :: _, [] => false
  | p :: ps, c :: cs => p = c && hasPre ps cs

/-- `hasSub pat s` models Python's substring test `pat in s`. -/
def hasSub (pat : List Char) : List Char → Bool
  | [] => hasPre pat []
  | c :: cs => hasPre pat (c :: cs) || hasSub pat cs

/-- Python `pat in s` on strings. -/
def strContains (s pat : String) : Bool := hasSub pat.toList s.toList

/-- Python `s.startswith(p)`. -/
def strStarts (s p : String) : Bool := hasPre p.toList s.toList

/-- Python `s.endswith(p)`. -/
def strEnds (s p : String) : Bool := hasPre p.toList.reverse s.toList.reverse

/-- Python `len(s)`. -/
def strLen (s : String) : Nat := s.toList.length

/-- Python `s[:n]` for `0 ≤ n` (clipped at the length, as in Python). -/
def strTake (s : String) (n : Nat) : String := (s.toList.take n).asString

/-- `os.path.basename`: the part of the path after the last slash. -/
def basename (s : String) : String :=
  ((s.toList.reverse.takeWhile (fun c => c ≠ '/')).reverse).asString

/-- `os.path.dirname` (posixpath): everything up to the last slash, with
trailing slashes stripped unless the head consists only of slashes. -/
def dirname (s : String) : String :=
  let head := (s.toList.reverse.dropWhile (fun c => c ≠ '/')).reverse
  if head.isEmpty || head.all (fun c => c = '/') then head.asString
  else ((head.reverse.dropWhile (fun c => c = '/')).reverse).asString

/-- `os.path.join` (posixpath) on two components. -/
def pjoin (a b : String) : String :=
  if strStarts b "/" then b
  else if a = "" || strEnds a "/" then a ++ b
  else a ++ "/" ++ b

/-- `os.path.join(*[a, b, c])`. -/
def pjoin3 (a b c : String) : String := pjoin (pjoin a b) c

/-- Filesystem model: the set of existing regular files and the set of
existing directories, as lists of paths. -/
structure FS where
  files : List String
  dirs : List String
deriving DecidableEq

/-- `os.path.isfile`. -/
def isfile (fs : FS) (p : String) : Bool := fs.files.contains p

/-- `os.path.exists`. -/
def pathExists (fs : FS) (p : String) : Bool :=
  fs.files.contains p || fs.dirs.contains p

/-- The chain of directories created by `os.makedirs p`: `p` and its
ancestors, stopping at the empty path or the root (fuel-bounded). -/
def dirChain : Nat → String → List String
  | 0, _ => []
  | n + 1, p =>
    if p = "" then []
    else if p = "/" then []
    else p :: dirChain n (dirname p)

/-- `os.makedirs p`: recursively create `p` and its missing ancestors. -/
def makedirs (fs : FS) (p : String) : FS :=
  { fs with dirs := dirChain (strLen p + 1) p ++ fs.dirs }

/-- `os.rename old new` on a regular file: `old` disappears, `new` exists. -/
def rename (fs : FS) (old new : String) : FS :=
  { fs with files := new :: fs.files.filter (fun q => q != old) }

/-- `os.rmdir p`: the directory `p` no longer exists. -/
def rmdir (fs : FS) (p : String) : FS :=
  { fs with dirs := fs.dirs.filter (fun q => q != p) }

/-- The `output` section the shim writes into the configuration:
`{'out_postfix': ..., 'out_dir': ...}`. -/
structure OutputCfg where
  outSuffix : String
  out_dir : String
deriving DecidableEq

/-- The YAML configuration. `model_to_load` is
`config['inference']['model_to_load']`; `inferenceRest` stands for the other
entries of the `inference` section and `rest` for the other top-level
sections, both opaque to the shim; `output` is the section the shim itself
populates (absent in the file). -/
structure Config where
  model_to_load : String
  inferenceRest : List (String × String)
  output : Option OutputCfg
  rest : List (String × String)
deriving DecidableEq

/-- The two errors the shim can raise itself. -/
inductive Err where
  | fileNotFound (msg : String)
  | assertionError (msg : String)
deriving DecidableEq

/-- The well-known default config path
`os.path.join(os.path.dirname(monaifbs.__file__), "config", "monai_dynUnet_inference_config.yml")`. -/
def defaultConfigPath (pkgDir : String) : String :=
  pjoin3 pkgDir "config" "monai_dynUnet_inference_config.yml"

/-- The config path actually checked: the explicitly supplied one if any,
otherwise the package default. -/
def effectiveConfigPath (pkgDir : String) (arg : Option String) : String :=
  match arg with
  | some p => p
  | none => defaultConfigPath pkgDir

/-- The bundled default checkpoint path
`os.path.join(os.path.dirname(monaifbs.__file__), "models", "checkpoint_dynUnet_DiceXent.pt")`. -/
def defaultModelPath (pkgDir : String) : String :=
  pjoin3 pkgDir "models" "checkpoint_dynUnet_DiceXent.pt"

/-- Lines 68-70: substitute the bundled checkpoint path when
`model_to_load` is the literal `"default"`. -/
def resolveModel (pkgDir : String) (c : Config) : Config :=
  if c.model_to_load = "default" then
    { c with model_to_load := defaultModelPath pkgDir }
  else c

/-- Lines 57-70: resolve the config path, fail if it is not an existing
file, otherwise take the parsed configuration (`parsed` stands for the
result of `yaml.load` on that file) and substitute the default model path. -/
def loadConfig (pkgDir : String) (fs : FS) (arg : Option String)
    (parsed : Config) : Except Err Config :=
  let cf := effectiveConfigPath pkgDir arg
  if isfile fs cf then .ok (resolveModel pkgDir parsed)
  else .error (.fileNotFound ("Expected config file: " ++ cf ++ " not found"))

/-- Lines 78-80: the output folder for one pair is `os.path.dirname(seg)`,
or the current working directory when that is empty. -/
def resolveOutFolder (cwd seg : String) : String :=
  let f := dirname seg
  if f = "" then cwd else f

/-- Lines 81-82: create the output folder only when it does not exist. -/
def ensureDir (fs : FS) (d : String) : FS :=
  if pathExists fs d then fs else makedirs fs d

/-- Lines 89-95: the base filename with its extension stripped, together
with the `flag_zip` flag.  The code tests the SUBSTRING `'gz' in
img_filename`, stripping 7 characters when it holds and 4 otherwise. -/
def stripName (fname : String) : String × Bool :=
  if strContains fname "gz" then (strTake fname (strLen fname - 7), true)
  else (strTake fname (strLen fname - 4), false)

/-- Lines 89-98: the intermediate output path the external inference
routine is expected to have produced, as recovered by the shim. -/
def expectedOutPath (out_folder img sfx : String) : String :=
  let s := stripName (basename img)
  let name :=
    if s.2 then s.1 ++ "_" ++ sfx ++ ".nii.gz"
    else s.1 ++ "_" ++ sfx ++ ".nii"
  pjoin (pjoin out_folder s.1) name

/-- Lines 100-108: the finalizer.  Fails when the expected intermediate
file is absent; otherwise renames it to the requested output name and, when
the renamed file exists, removes the intermediate subdirectory. -/
def finalize (fs : FS) (out_folder stem outPath seg : String) :
    Except Err FS :=
  if pathExists fs outPath then
    let fs1 := rename fs outPath seg
    let fs2 :=
      if pathExists fs1 seg then rmdir fs1 (pjoin out_folder stem) else fs1
    .ok fs2
  else
    .error (.fileNotFound ("Network output file " ++ outPath ++
      " not found, check if the segmentation pipeline has failed"))

/-- The state prepared before one `run_inference` call: the configuration
with its `output` section set, the filesystem after directory creation, and
the resolved output folder (lines 78-83). -/
structure IterPrep where
  config1 : Config
  fs1 : FS
  out_folder : String
deriving DecidableEq

/-- Lines 78-83 for one pair: resolve the output folder, create it if
absent, and set `config['output'] = {'out_postfix': 'seg', 'out_dir': ...}`. -/
def prepareIter (cwd : String) (config : Config) (fs : FS) (seg : String) :
    IterPrep :=
  let f := resolveOutFolder cwd seg
  { config1 := { config with output := some { outSuffix := "seg", out_dir := f } }
    fs1 := ensureDir fs f
    out_folder := f }

/-- One recorded `run_inference` invocation: the input path of the pair
being processed, its requested output path, and the configuration passed. -/
abbrev Call : Type := String × String × Config

instance instDecEqExcept {ε α : Type} [DecidableEq ε] [DecidableEq α] :
    DecidableEq (Except ε α) := fun a b =>
  match a, b with
  | .ok x, .ok y =>
    if h : x = y then isTrue (by rw [h]) else isFalse (by simp [h])
  | .ok _, .error _ => isFalse (by simp)
  | .error _, .ok _ => isFalse (by simp)
  | .error e, .error e' =>
    if h : e = e' then isTrue (by rw [h]) else isFalse (by simp [h])

/-- One loop iteration up to the point a filesystem outcome is known
(lines 78-108): prepare the output folder and configuration, run the
external inference, recover the expected intermediate path (reading
`out_postfix` back from the configuration, line 96) and finalize.  Returns
the configuration passed to `run_inference` together with the finalizer's
outcome. -/
def iterStep (cwd : String) (infer : String → Config → FS → FS)
    (config : Config) (fs : FS) (img seg : String) :
    Config × Except Err FS :=
  let p := prepareIter cwd config fs seg
  let fs2 := infer img p.config1 p.fs1
  let sfx := ((p.config1.output).map OutputCfg.outSuffix).getD ""
  let outPath := expectedOutPath p.out_folder img sfx
  let stem := (stripName (basename img)).1
  (p.config1, finalize fs2 p.out_folder stem outPath seg)

/-- Lines 75-108: the loop over `zip(input_names, segment_output_names)`.
`infer` is the opaque external `run_inference`, acting on the filesystem.
Returns the outcome together with the trace of inference invocations. -/
def runLoop (cwd : String) (infer : String → Config → FS → FS) :
    List (String × String) → Config → FS →
    Except Err (Config × FS) × List Call
  | [], config, fs => (.ok (config, fs), [])
  | (img, seg) :: restPairs, config, fs =>
    let st := iterStep cwd infer config fs img seg
    let call : Call := (img, seg, st.1)
    match st.2 with
    | .error e => (.error e, [call])
    | .ok fs3 =>
      let r := runLoop cwd infer restPairs st.1 fs3
      (r.1, call :: r.2)

/-- The whole script body (lines 56-108): config resolution and model-path
substitution, then the length assertion, then the per-pair loop. -/
def mainRun (pkgDir cwd : String) (fs : FS)
    (inputNames segNames : List String) (cfgArg : Option String)
    (parsed : Config) (infer : String → Config → FS → FS) :
    Except Err (Config × FS) × List Call :=
  match loadConfig pkgDir fs cfgArg parsed with
  | .error e => (.error e, [])
  | .ok config =>
    if inputNames.length = segNames.length then
      runLoop cwd infer (inputNames.zip segNames) config fs
    else
      (.error (.assertionError
        "The numbers of input output filenames do not match"), [])

/-- The expected intermediate output path as the specification words it:
strip a `.nii.gz` (respectively `.nii`) extension from the input's base
name, place the result in a subdirectory named after the stripped base name
under the output directory, and append `_seg` plus the original extension.
This definition follows the spec's words and is compared against
`expectedOutPath`, which follows the code. -/
def specExpectedOutPath (out_folder img : String) : String :=
  let b := basename img
  if strEnds b ".nii.gz" then
    let stem := strTake b (strLen b - 7)
    pjoin (pjoin out_folder stem) (stem ++ "_seg" ++ ".nii.gz")
  else
    let stem := strTake b (strLen b - 4)
    pjoin (pjoin out_folder stem) (stem ++ "_seg" ++ ".nii")

/-- Two configurations agreeing on everything except the `output` section. -/
def frameEq (a b : Config) : Prop :=
  a.model_to_load = b.model_to_load ∧
  a.inferenceRest = b.inferenceRest ∧
  a.rest = b.rest

/-- A concrete stand-in for the external inference routine that produces
exactly the file `out/case1/case1_seg.nii.gz` inside a fresh intermediate
directory `out/case1`, as the MONAI naming convention dictates for input
`case1.nii.gz` and output directory `out`. -/
def demoInfer : String → Config → FS → FS := fun _ _ fs =>
  { fs with
    files := "out/case1/case1_seg.nii.gz" :: fs.files
    dirs := "out/case1" :: fs.dirs }

/-- A parsed configuration with an explicit (non-`"default"`) model path. -/
def demoParsed : Config :=
  { model_to_load := "m.pt", inferenceRest := [], output := none, rest := [] }

/-- An initial filesystem holding only the default config file. -/
def demoFS : FS := { files := [defaultConfigPath "/pkg"], dirs := [] }

/-- The full run for input `case1.nii.gz`, requested output
`out/case1_mask.nii.gz`, with `demoInfer` standing in for `run_inference`. -/
def demoRun : Except Err (Config × FS) × List Call :=
  mainRun "/pkg" "/cwd" demoFS ["case1.nii.gz"] ["out/case1_mask.nii.gz"]
    none demoParsed demoInfer

/-- The configuration as it stands after the single demo iteration. -/
def demoFinalConfig : Config :=
  { model_to_load := "m.pt", inferenceRest := [], rest := [],
    output := some { outSuffix := "seg", out_dir := "out" } }

/-- The filesystem after the demo run: the renamed segmentation, the config
file, and the created output directory with the intermediate directory gone. -/
def demoFinalFS : FS :=
  { files := ["out/case1_mask.nii.gz", defaultConfigPath "/pkg"]
    dirs := ["out"] }

/-! ## Helper lemmas -/

theorem iterStep_fst (cwd : String) (infer : String → Config → FS → FS)
    (config : Config) (fs : FS) (img seg : String) :
    (iterStep cwd infer config fs img seg).1 =
      { config with
        output := some { outSuffix := "seg", out_dir := resolveOutFolder cwd seg } } :=
  rfl

theorem frameEq_refl (a : Config) : frameEq a a := ⟨rfl, rfl, rfl⟩

theorem frameEq_trans {a b c : Config} (h1 : frameEq a b) (h2 : frameEq b c) :
    frameEq a c :=
  ⟨h1.1.trans h2.1, h1.2.1.trans h2.2.1, h1.2.2.trans h2.2.2⟩

theorem frameEq_setOutput (config : Config) (o : Option OutputCfg) :
    frameEq { config with output := o } config :=
  ⟨rfl, rfl, rfl⟩

theorem runLoop_frame (cwd : String) (infer : String → Config → FS → FS)
    (pairs : List (String × String)) (config : Config) (fs : FS) :
    (∀ call ∈ (runLoop cwd infer pairs config fs).2, frameEq call.2.2 config) ∧
    (∀ c' fs', (runLoop cwd infer pairs config fs).1 = .ok (c', fs') →
      frameEq c' config) := by
  induction pairs generalizing config fs with
  | nil =>
    refine ⟨?_, ?_⟩
    · intro call hc
      simp [runLoop] at hc
    · intro c' fs' h
      simp [runLoop] at h
      rw [← h.1]
      exact frameEq_refl config
  | cons p restPairs ih =>
    obtain ⟨img, seg⟩ := p
    have hfst : frameEq (iterStep cwd infer config fs img seg).1 config := by
      rw [iterStep_fst]
      exact frameEq_setOutput config _
    cases hst : (iterStep cwd infer config fs img seg).2 with
    | error e =>
      refine ⟨?_, ?_⟩
      · intro call hc
        simp [runLoop, hst] at hc
        rw [hc]
        exact hfst
      · intro c' fs' h
        simp [runLoop, hst] at h
    | ok fs3 =>
      refine ⟨?_, ?_⟩
      · intro call hc
        simp [runLoop, hst] at hc
        rcases hc with hc | hc
        · rw [hc]
          exact hfst
        · exact frameEq_trans ((ih _ fs3).1 call hc) hfst
      · intro c' fs' h
        simp [runLoop, hst] at h
        exact frameEq_trans ((ih _ fs3).2 c' fs' h) hfst

theorem runLoop_trace (cwd : String) (infer : String → Config → FS → FS)
    (pairs : List (String × String)) (config : Config) (fs : FS)
    (c' : Config) (fs' : FS)
    (h : (runLoop cwd infer pairs config fs).1 = .ok (c', fs')) :
    ((runLoop cwd infer pairs config fs).2).map (fun c => (c.1, c.2.1)) =
      pairs := by
  induction pairs generalizing config fs c' fs' with
  | nil => simp [runLoop]
  | cons p restPairs ih =>
    obtain ⟨img, seg⟩ := p
    cases hst : (iterStep cwd infer config fs img seg).2 with
    | error e =>
      rw [runLoop] at h
      simp [hst] at h
    | ok fs3 =>
      rw [runLoop] at h
      simp only [hst] at h
      simp [runLoop, hst]
      exact ih _ fs3 c' fs' h

/-! ## Claim C1: expected intermediate output path -/

/-- C1 is false as stated: the code decides compression by testing whether
`gz` occurs ANYWHERE in the base filename (line 91), not by the extension.
For the uncompressed input `datagz.nii` the code strips seven characters
and appends `_seg.nii.gz`, yielding `out/dat/dat_seg.nii.gz`, while the
claimed rule yields `out/datagz/datagz_seg.nii`. -/
theorem c1_counterexample :
    expectedOutPath "out" "datagz.nii" "seg" = "out/dat/dat_seg.nii.gz" ∧
    specExpectedOutPath "out" "datagz.nii" = "out/datagz/datagz_seg.nii" ∧
    expectedOutPath "out" "datagz.nii" "seg" ≠
      specExpectedOutPath "out" "datagz.nii" := by
  refine ⟨by decide, by decide, by decide⟩

/-- C1 (amended): for every input filename whose base name contains the
substring `gz` exactly when it ends in `.nii.gz`, the expected intermediate
output path equals the output directory joined with a subdirectory named
after the input's base filename (extension stripped) and a filename
obtained by stripping a `.nii` or `.nii.gz` extension and appending `_seg`
plus the original extension; in particular an uncompressed `.nii` input
without `gz` elsewhere in its name yields a `.nii` intermediate name. -/
theorem c1_expected_path_spec (out_folder img : String)
    (h : strContains (basename img) "gz" = strEnds (basename img) ".nii.gz") :
    expectedOutPath out_folder img "seg" = specExpectedOutPath out_folder img := by
  unfold expectedOutPath specExpectedOutPath stripName
  cases hz : strEnds (basename img) ".nii.gz" with
  | true =>
    rw [hz] at h
    simp [h, hz, String.append_assoc]
  | false =>
    rw [hz] at h
    simp [h, hz, String.append_assoc]

/-- Witness for C1 at the uncompressed input `case2.nii`: the hypothesis
holds and the intermediate name keeps the `.nii` extension. -/
theorem c1_expected_path_spec_witness :
    (strContains (basename "case2.nii") "gz" =
      strEnds (basename "case2.nii") ".nii.gz") ∧
    expectedOutPath "out" "case2.nii" "seg" =
      specExpectedOutPath "out" "case2.nii" ∧
    expectedOutPath "out" "case2.nii" "seg" = "out/case2/case2_seg.nii" :=
  ⟨by decide, c1_expected_path_spec "out" "case2.nii" (by decide), by decide⟩

/-! ## Claim C2: length mismatch fails before any inference -/

/-- C2: when the input-name list and the output-name list have different
lengths, the run fails with the fatal assertion error and the trace of
`run_inference` invocations is empty (zero inference invocations). -/
theorem c2_mismatched_lengths (pkgDir cwd : String) (fs : FS)
    (inputNames segNames : List String) (cfgArg : Option String)
    (parsed : Config) (infer : String → Config → FS → FS)
    (hcfg : isfile fs (effectiveConfigPath pkgDir cfgArg) = true)
    (hlen : inputNames.length ≠ segNames.length) :
    (mainRun pkgDir cwd fs inputNames segNames cfgArg parsed infer).1 =
      .error (.assertionError
        "The numbers of input output filenames do not match") ∧
    (mainRun pkgDir cwd fs inputNames segNames cfgArg parsed infer).2 = [] := by
  unfold mainRun loadConfig
  simp [hcfg, hlen]

/-- Witness for C2: one input name against zero output names, with an
existing config file. -/
theorem c2_mismatched_lengths_witness :
    (mainRun "/pkg" "/cwd" { files := ["/cfg.yml"], dirs := [] } ["a.nii"] []
        (some "/cfg.yml") demoParsed (fun _ _ fs => fs)).1 =
      .error (.assertionError
        "The numbers of input output filenames do not match") ∧
    (mainRun "/pkg" "/cwd" { files := ["/cfg.yml"], dirs := [] } ["a.nii"] []
        (some "/cfg.yml") demoParsed (fun _ _ fs => fs)).2 = [] :=
  c2_mismatched_lengths "/pkg" "/cwd" { files := ["/cfg.yml"], dirs := [] }
    ["a.nii"] [] (some "/cfg.yml") demoParsed (fun _ _ fs => fs)
    (by decide) (by decide)

/-! ## Claim C3: one inference invocation per pair, in order -/

/-- C3: for equal-length input and output lists, if every per-file
iteration succeeds (the run returns a final state), then `run_inference`
was invoked exactly once per (input, output) pair, in list order: the call
trace projects to `inputNames.zip segNames` and has length
`inputNames.length`. -/
theorem c3_inference_per_pair (pkgDir cwd : String) (fs : FS)
    (inputNames segNames : List String) (cfgArg : Option String)
    (parsed : Config) (infer : String → Config → FS → FS)
    (hlen : inputNames.length = segNames.length) (c' : Config) (fs' : FS)
    (hok : (mainRun pkgDir cwd fs inputNames segNames cfgArg parsed infer).1 =
      .ok (c', fs')) :
    ((mainRun pkgDir cwd fs inputNames segNames cfgArg parsed infer).2).map
        (fun c => (c.1, c.2.1)) = inputNames.zip segNames ∧
    ((mainRun pkgDir cwd fs inputNames segNames cfgArg parsed infer).2).length =
      inputNames.length := by
  unfold mainRun at hok ⊢
  cases hcfg : loadConfig pkgDir fs cfgArg parsed with
  | error e =>
    rw [hcfg] at hok
    simp at hok
  | ok config =>
    rw [hcfg] at hok
    simp only [if_pos hlen] at hok ⊢
    have ht := runLoop_trace cwd infer (inputNames.zip segNames) config fs
      c' fs' hok
    refine ⟨ht, ?_⟩
    have h2 : ((runLoop cwd infer (inputNames.zip segNames) config fs).2).length
        = (inputNames.zip segNames).length := by
      conv_rhs => rw [← ht]
      rw [List.length_map]
    rw [h2, List.length_zip, hlen, Nat.min_self]

/-- Witness for C3: the demo run succeeds and its trace is the single
pair, so there is exactly one inference invocation. -/
theorem c3_inference_per_pair_witness :
    (demoRun.2).map (fun c => (c.1, c.2.1)) =
      [("case1.nii.gz", "out/case1_mask.nii.gz")] ∧
    (demoRun.2).length = 1 :=
  c3_inference_per_pair "/pkg" "/cwd" demoFS ["case1.nii.gz"]
    ["out/case1_mask.nii.gz"] none demoParsed demoInfer rfl
    demoFinalConfig demoFinalFS (by decide)

/-! ## Claim C4: config resolution and file-not-found -/

/-- C4: config resolution raises the file-not-found error exactly when the
effective config path — the explicitly supplied path if one is given, the
well-known package default otherwise — is not an existing file; for an
explicitly supplied nonexistent path the whole run fails with that error
with no inference attempted and no fallback to the default path. -/
theorem c4_config_resolution (pkgDir : String) (fs : FS)
    (cfgArg : Option String) (parsed : Config) :
    (loadConfig pkgDir fs cfgArg parsed =
        .error (.fileNotFound ("Expected config file: " ++
          effectiveConfigPath pkgDir cfgArg ++ " not found")) ↔
      isfile fs (effectiveConfigPath pkgDir cfgArg) = false) ∧
    (∀ p, cfgArg = some p → effectiveConfigPath pkgDir cfgArg = p) ∧
    (∀ cwd inputNames segNames infer p, cfgArg = some p →
      isfile fs p = false →
      (mainRun pkgDir cwd fs inputNames segNames cfgArg parsed infer).1 =
        .error (.fileNotFound ("Expected config file: " ++ p ++ " not found")) ∧
      (mainRun pkgDir cwd fs inputNames segNames cfgArg parsed infer).2 = []) := by
  refine ⟨?_, ?_, ?_⟩
  · unfold loadConfig
    cases hf : isfile fs (effectiveConfigPath pkgDir cfgArg) with
    | true => simp [hf]
    | false => simp [hf]
  · intro p hp
    rw [hp]
    rfl
  · intro cwd inputNames segNames infer p hp hfile
    subst hp
    unfold mainRun loadConfig
    simp [effectiveConfigPath, hfile]

/-- Witness for C4: an explicitly supplied missing config path makes the
whole run fail with the file-not-found error and an empty call trace. -/
theorem c4_config_resolution_witness :
    (mainRun "/pkg" "/cwd" { files := [], dirs := [] } ["a.nii"] ["b.nii"]
        (some "/nope.yml") demoParsed (fun _ _ fs => fs)).1 =
      .error (.fileNotFound "Expected config file: /nope.yml not found") ∧
    (mainRun "/pkg" "/cwd" { files := [], dirs := [] } ["a.nii"] ["b.nii"]
        (some "/nope.yml") demoParsed (fun _ _ fs => fs)).2 = [] :=
  (c4_config_resolution "/pkg" { files := [], dirs := [] } (some "/nope.yml")
    demoParsed).2.2 "/cwd" ["a.nii"] ["b.nii"] (fun _ _ fs => fs) "/nope.yml"
    rfl (by decide)

/-! ## Claim C5: default model path substitution -/

/-- C5: when the resolved config file exists, the configuration is taken
as parsed with exactly one substitution: a `model_to_load` equal to the
literal `"default"` is replaced by the bundled checkpoint path
`<pkg>/models/checkpoint_dynUnet_DiceXent.pt`; any other value, and every
other field, is left unchanged. -/
theorem c5_model_substitution (pkgDir : String) (fs : FS)
    (cfgArg : Option String) (parsed : Config)
    (hfile : isfile fs (effectiveConfigPath pkgDir cfgArg) = true) :
    loadConfig pkgDir fs cfgArg parsed = .ok (resolveModel pkgDir parsed) ∧
    (parsed.model_to_load = "default" →
      resolveModel pkgDir parsed =
        { parsed with
          model_to_load := pjoin3 pkgDir "models" "checkpoint_dynUnet_DiceXent.pt" }) ∧
    (parsed.model_to_load ≠ "default" → resolveModel pkgDir parsed = parsed) := by
  refine ⟨?_, ?_, ?_⟩
  · unfold loadConfig
    simp [hfile]
  · intro hd
    unfold resolveModel defaultModelPath
    simp [hd]
  · intro hd
    unfold resolveModel
    simp [hd]

/-- Witness for C5: a parsed config with `model_to_load: default` resolves
to the bundled checkpoint path, all other fields untouched. -/
theorem c5_model_substitution_witness :
    loadConfig "/pkg" { files := [defaultConfigPath "/pkg"], dirs := [] } none
      { model_to_load := "default", inferenceRest := [("k", "v")],
        output := none, rest := [("s", "t")] } =
      .ok { model_to_load := "/pkg/models/checkpoint_dynUnet_DiceXent.pt",
            inferenceRest := [("k", "v")], output := none,
            rest := [("s", "t")] } := by
  have h := c5_model_substitution "/pkg"
    { files := [defaultConfigPath "/pkg"], dirs := [] } none
    { model_to_load := "default", inferenceRest := [("k", "v")],
      output := none, rest := [("s", "t")] } (by decide)
  rw [h.1, h.2.1 rfl]
  decide

theorem resolveModel_inferenceRest (pkgDir : String) (c : Config) :
    (resolveModel pkgDir c).inferenceRest = c.inferenceRest := by
  unfold resolveModel
  split <;> rfl

theorem resolveModel_rest (pkgDir : String) (c : Config) :
    (resolveModel pkgDir c).rest = c.rest := by
  unfold resolveModel
  split <;> rfl

/-! ## Claim C6: output directory handling per iteration -/

/-- C6: the output directory used for a pair is the output path's
directory component, or the current working directory when that component
is empty; the directory is created recursively only when it does not
already exist (and the guarded creation is idempotent); and before the
inference call the configuration's `output` section is set to the postfix
`"seg"` and that directory. -/
theorem c6_output_dir_setup (cwd seg : String) (config : Config) (fs : FS) :
    (prepareIter cwd config fs seg).out_folder =
      (if dirname seg = "" then cwd else dirname seg) ∧
    (pathExists fs (resolveOutFolder cwd seg) = true →
      (prepareIter cwd config fs seg).fs1 = fs) ∧
    (pathExists fs (resolveOutFolder cwd seg) = false →
      (prepareIter cwd config fs seg).fs1 =
        makedirs fs (resolveOutFolder cwd seg)) ∧
    (∀ d, ensureDir (ensureDir fs d) d = ensureDir fs d) ∧
    (prepareIter cwd config fs seg).config1 =
      { config with
        output := some { outSuffix := "seg",
                         out_dir := resolveOutFolder cwd seg } } := by
  refine ⟨rfl, ?_, ?_, ?_, rfl⟩
  · intro h
    unfold prepareIter ensureDir
    simp [h]
  · intro h
    unfold prepareIter ensureDir
    simp [h]
  · intro d
    unfold ensureDir
    cases hd : pathExists fs d with
    | true => simp [hd]
    | false =>
      simp only [hd, Bool.false_eq_true, if_false]
      by_cases h0 : d = ""
      · subst h0
        have hmk : makedirs fs "" = fs := by simp [makedirs, dirChain]
        simp [hmk, hd]
      · by_cases h1 : d = "/"
        · subst h1
          have hmk : makedirs fs "/" = fs := by simp [makedirs, dirChain]
          simp [hmk, hd]
        · have hmem : pathExists (makedirs fs d) d = true := by
            unfold pathExists makedirs
            simp [dirChain, h0, h1]
          simp [hmem]

/-- Witness for C6 at output path `out/x.nii`: the folder is `out`, it is
left alone when present, created when absent, creation is idempotent, and
the config's output section is set. -/
theorem c6_output_dir_setup_witness :
    (prepareIter "/cwd" demoParsed { files := [], dirs := [] }
      "out/x.nii").out_folder = "out" ∧
    (prepareIter "/cwd" demoParsed { files := [], dirs := ["out"] }
      "out/x.nii").fs1 = { files := [], dirs := ["out"] } ∧
    (prepareIter "/cwd" demoParsed { files := [], dirs := [] }
      "out/x.nii").fs1 = makedirs { files := [], dirs := [] } "out" ∧
    ensureDir (ensureDir { files := [], dirs := [] } "out") "out" =
      ensureDir { files := [], dirs := [] } "out" ∧
    (prepareIter "/cwd" demoParsed { files := [], dirs := [] }
      "out/x.nii").config1 =
      { demoParsed with
        output := some { outSuffix := "seg", out_dir := "out" } } := by
  refine ⟨?_, ?_, ?_, ?_, ?_⟩
  · exact (c6_output_dir_setup "/cwd" "out/x.nii" demoParsed
      { files := [], dirs := [] }).1
  · exact (c6_output_dir_setup "/cwd" "out/x.nii" demoParsed
      { files := [], dirs := ["out"] }).2.1 (by decide)
  · exact (c6_output_dir_setup "/cwd" "out/x.nii" demoParsed
      { files := [], dirs := [] }).2.2.1 (by decide)
  · exact (c6_output_dir_setup "/cwd" "out/x.nii" demoParsed
      { files := [], dirs := [] }).2.2.2.1 "out"
  · exact (c6_output_dir_setup "/cwd" "out/x.nii" demoParsed
      { files := [], dirs := [] }).2.2.2.2

/-! ## Claim C7: finalizer renames and removes the intermediate directory -/

/-- C7: whenever the expected intermediate file exists, the finalizer
renames it to the user-requested output name, the renamed file then
exists, and the intermediate subdirectory is removed (only after the
rename).  Concretely, running the pipeline on input `case1.nii.gz` with
requested output `out/case1_mask.nii.gz` and an inference step producing
`out/case1/case1_seg.nii.gz` ends with the renamed file present and both
the intermediate file and the directory `out/case1` gone. -/
theorem c7_finalizer_rename :
    (∀ (fs : FS) (f stem outPath seg : String),
      pathExists fs outPath = true →
      finalize fs f stem outPath seg =
        .ok (rmdir (rename fs outPath seg) (pjoin f stem)) ∧
      pathExists (rename fs outPath seg) seg = true) ∧
    demoRun.1 = .ok (demoFinalConfig, demoFinalFS) ∧
    isfile demoFinalFS "out/case1_mask.nii.gz" = true ∧
    pathExists demoFinalFS "out/case1/case1_seg.nii.gz" = false ∧
    pathExists demoFinalFS "out/case1" = false := by
  refine ⟨?_, by decide, by decide, by decide, by decide⟩
  intro fs f stem outPath seg h
  have hseg : pathExists (rename fs outPath seg) seg = true := by
    simp [rename, pathExists]
  refine ⟨?_, hseg⟩
  unfold finalize
  simp [h, hseg]

/-- Witness for C7 at a concrete filesystem: the intermediate file
`out/case1/case1_seg.nii.gz` exists, and finalizing renames it to
`out/case1_mask.nii.gz` and drops the directory `out/case1`. -/
theorem c7_finalizer_rename_witness :
    pathExists { files := ["out/case1/case1_seg.nii.gz"],
                 dirs := ["out/case1", "out"] }
      "out/case1/case1_seg.nii.gz" = true ∧
    finalize { files := ["out/case1/case1_seg.nii.gz"],
               dirs := ["out/case1", "out"] }
      "out" "case1" "out/case1/case1_seg.nii.gz" "out/case1_mask.nii.gz" =
      .ok { files := ["out/case1_mask.nii.gz"], dirs := ["out"] } := by
  refine ⟨by decide, ?_⟩
  have h := c7_finalizer_rename.1
    { files := ["out/case1/case1_seg.nii.gz"], dirs := ["out/case1", "out"] }
    "out" "case1" "out/case1/case1_seg.nii.gz" "out/case1_mask.nii.gz"
    (by decide)
  rw [h.1]
  decide

/-! ## Claim C8: missing intermediate output file -/

/-- C8: when the expected intermediate output file does not exist after
the inference call, the finalizer raises the file-not-found error; it
returns no filesystem, so no rename and no directory removal happen in
that iteration. -/
theorem c8_missing_output (fs : FS) (f stem outPath seg : String)
    (h : pathExists fs outPath = false) :
    finalize fs f stem outPath seg =
      .error (.fileNotFound ("Network output file " ++ outPath ++
        " not found, check if the segmentation pipeline has failed")) := by
  unfold finalize
  simp [h]

/-- Witness for C8: an empty filesystem has no intermediate output, so
finalizing errors out. -/
theorem c8_missing_output_witness :
    pathExists { files := [], dirs := [] } "out/c/c_seg.nii" = false ∧
    finalize { files := [], dirs := [] } "out" "c" "out/c/c_seg.nii"
      "mask.nii" =
      .error (.fileNotFound ("Network output file out/c/c_seg.nii" ++
        " not found, check if the segmentation pipeline has failed")) :=
  ⟨by decide,
    c8_missing_output { files := [], dirs := [] } "out" "c" "out/c/c_seg.nii"
      "mask.nii" (by decide)⟩

/-! ## Claim C9: only the output section of the config is mutated -/

/-- C9: across all loop iterations the shim never modifies any part of
the configuration other than its `output` entry: every configuration
passed to `run_inference`, and the final configuration of a successful
run, carries the model path fixed once before the loop and the parsed
values of every other field. -/
theorem c9_config_frame (pkgDir cwd : String) (fs : FS)
    (inputNames segNames : List String) (cfgArg : Option String)
    (parsed : Config) (infer : String → Config → FS → FS) :
    (∀ call ∈ (mainRun pkgDir cwd fs inputNames segNames cfgArg parsed infer).2,
      call.2.2.model_to_load = (resolveModel pkgDir parsed).model_to_load ∧
      call.2.2.inferenceRest = parsed.inferenceRest ∧
      call.2.2.rest = parsed.rest) ∧
    (∀ c' fs',
      (mainRun pkgDir cwd fs inputNames segNames cfgArg parsed infer).1 =
        .ok (c', fs') →
      c'.model_to_load = (resolveModel pkgDir parsed).model_to_load ∧
      c'.inferenceRest = parsed.inferenceRest ∧
      c'.rest = parsed.rest) := by
  unfold mainRun
  cases hcfg : loadConfig pkgDir fs cfgArg parsed with
  | error e =>
    refine ⟨?_, ?_⟩
    · intro call hc
      simp at hc
    · intro c' fs' h
      simp at h
  | ok config =>
    have hconfig : config = resolveModel pkgDir parsed := by
      unfold loadConfig at hcfg
      cases hf : isfile fs (effectiveConfigPath pkgDir cfgArg) with
      | true =>
        rw [if_pos hf] at hcfg
        exact (Except.ok.inj hcfg).symm
      | false =>
        rw [if_neg (by simp [hf])] at hcfg
        exact absurd hcfg (by simp)
    by_cases hlen : inputNames.length = segNames.length
    · simp only [if_pos hlen]
      have hr := runLoop_frame cwd infer (inputNames.zip segNames) config fs
      refine ⟨?_, ?_⟩
      · intro call hc
        have hfr := hr.1 call hc
        rw [hconfig] at hfr
        exact ⟨hfr.1,
          hfr.2.1.trans (resolveModel_inferenceRest pkgDir parsed),
          hfr.2.2.trans (resolveModel_rest pkgDir parsed)⟩
      · intro c' fs' h
        have hfr := hr.2 c' fs' h
        rw [hconfig] at hfr
        exact ⟨hfr.1,
          hfr.2.1.trans (resolveModel_inferenceRest pkgDir parsed),
          hfr.2.2.trans (resolveModel_rest pkgDir parsed)⟩
    · simp only [if_neg hlen]
      refine ⟨?_, ?_⟩
      · intro call hc
        simp at hc
      · intro c' fs' h
        simp at h

/-- Witness for C9: the final configuration of the successful demo run
differs from the parsed one only in the `output` section. -/
theorem c9_config_frame_witness :
    demoFinalConfig.model_to_load =
      (resolveModel "/pkg" demoParsed).model_to_load ∧
    demoFinalConfig.inferenceRest = demoParsed.inferenceRest ∧
    demoFinalConfig.rest = demoParsed.rest :=
  (c9_config_frame "/pkg" "/cwd" demoFS ["case1.nii.gz"]
    ["out/case1_mask.nii.gz"] none demoParsed demoInfer).2
    demoFinalConfig demoFinalFS (by decide)

/-! ## Claim C10: config check precedes the length assertion -/

/-- C10: the config-file existence check happens before the input/output
length assertion, so with a missing effective config path and mismatched
list lengths the run fails with the file-not-found error, not the
assertion error, and no inference is invoked. -/
theorem c10_error_order (pkgDir cwd : String) (fs : FS)
    (inputNames segNames : List String) (cfgArg : Option String)
    (parsed : Config) (infer : String → Config → FS → FS)
    (hcfg : isfile fs (effectiveConfigPath pkgDir cfgArg) = false)
    ( _hlen : inputNames.length ≠ segNames.length) :
    (mainRun pkgDir cwd fs inputNames segNames cfgArg parsed infer).1 =
      .error (.fileNotFound ("Expected config file: " ++
        effectiveConfigPath pkgDir cfgArg ++ " not found")) ∧
    (mainRun pkgDir cwd fs inputNames segNames cfgArg parsed infer).2 = [] := by
  unfold mainRun loadConfig
  simp [hcfg]

/-- Witness for C10: a missing explicit config path together with
mismatched list lengths yields the file-not-found error. -/
theorem c10_error_order_witness :
    (mainRun "/pkg" "/cwd" { files := [], dirs := [] } ["a.nii"] []
        (some "/nope.yml") demoParsed (fun _ _ fs => fs)).1 =
      .error (.fileNotFound
        ("Expected config file: " ++ "/nope.yml" ++ " not found")) ∧
    (mainRun "/pkg" "/cwd" { files := [], dirs := [] } ["a.nii"] []
        (some "/nope.yml") demoParsed (fun _ _ fs => fs)).2 = [] :=
  c10_error_order "/pkg" "/cwd" { files := [], dirs := [] } ["a.nii"] []
    (some "/nope.yml") demoParsed (fun _ _ fs => fs) (by decide) (by decide)

end FetalBrainSeg
